import Mathlib

/-!
Verification development for the QueryTee application (`src/app.py`), a
natural-language → SQL → answer pipeline.  The Python source is shallowly
embedded: pure string manipulation becomes functions on `List Char` / `String`,
the external language-model and database calls become explicit outcome
oracles, and Python values flowing through rows become the inductive `PyVal`.
-/

/- ### Character classes

Python's regex classes `[A-Z]`, `[a-z]`, `[a-zA-Z]` are the ASCII ranges; `\d`
is modelled as the ASCII digits `0`-`9` (the app only ever feeds it
model-generated English prose).  `str.strip()` whitespace is modelled as the
ASCII whitespace characters. -/

def isUpperAZ (c : Char) : Bool := 65 ≤ c.toNat && c.toNat ≤ 90

def isLowerAZ (c : Char) : Bool := 97 ≤ c.toNat && c.toNat ≤ 122

def isDigit09 (c : Char) : Bool := 48 ≤ c.toNat && c.toNat ≤ 57

def isLetterAZ (c : Char) : Bool := isLowerAZ c || isUpperAZ c

def isPySpace (c : Char) : Bool :=
  c = ' ' || c = '\t' || c = '\n' || c = '\r' || c.toNat = 11 || c.toNat = 12

/- ### `re.sub` for the three cleanup rules of `clean_response_text`

Each of the three substitutions in `clean_response_text` (src/app.py:20-22)
matches a two-character pattern and rewrites it by inserting a single space
between the two characters (`'\.([A-Z])' → '. \1'`, `'([a-z])([A-Z])' → '\1 \2'`,
`'(\d)([a-zA-Z])' → '\1 \2'`).  `subPair p` is that substitution for the
two-character test `p`: it scans left to right, and on a match the scan
resumes after the matched pair, exactly like `re.sub`'s non-overlapping
semantics. -/

def subPair (p : Char → Char → Bool) : List Char → List Char
  | [] => []
  | [c] => [c]
  | a :: b :: rest =>
    if p a b then a :: ' ' :: b :: subPair p rest
    else a :: subPair p (b :: rest)

/-- Pattern `\.([A-Z])` : a period directly followed by a capital letter. -/
def ruleDotCap (a b : Char) : Bool := a = '.' && isUpperAZ b

/-- Pattern `([a-z])([A-Z])` : a lowercase letter directly followed by a capital. -/
def ruleLowCap (a b : Char) : Bool := isLowerAZ a && isUpperAZ b

/-- Pattern `(\d)([a-zA-Z])` : a digit directly followed by a letter. -/
def ruleDigLet (a b : Char) : Bool := isDigit09 a && isLetterAZ b

/-- The three substitutions of `clean_response_text`, in source order. -/
def cleanChars (l : List Char) : List Char :=
  subPair ruleDigLet (subPair ruleLowCap (subPair ruleDotCap l))

/- ### Python values

A `PyVal` is a Python value as it can appear in a result row: `None`, `str`,
`int`, `bool`, or a float/Decimal.  A finite float value is embedded as the
exact decimal `m × 10⁻ᵉ` (`vNum m e`): every value the claims evaluate is a
terminating decimal on which the embedding agrees with Python.  `vNaN` is
`float('nan')`, the filler pandas uses for entries a row is missing. -/

inductive PyVal where
  | vNone : PyVal
  | vStr (s : String) : PyVal
  | vInt (n : Int) : PyVal
  | vNum (m : Int) (e : Nat) : PyVal
  | vBool (b : Bool) : PyVal
  | vNaN : PyVal
deriving DecidableEq

/-- `clean_response_text` (src/app.py:16-23).  A non-`str` argument fails the
`isinstance` test and yields `""`; a `str` goes through the three `re.sub`
passes.  The embedding is a total function: the Python body cannot raise. -/
def clean_response_text (v : PyVal) : String :=
  match v with
  | .vStr s => ⟨cleanChars s.data⟩
  | _ => ""

/- ### No-match predicates and the generic `subPair` lemmas -/

/-- `noPair p l` : no two adjacent characters of `l` match the two-character
pattern `p` (i.e. a further `re.sub` pass for `p` would be the identity). -/
def noPair (p : Char → Char → Bool) : List Char → Bool
  | [] => true
  | [_] => true
  | a :: b :: rest => !p a b && noPair p (b :: rest)

/- ### Code-fence extraction (`natural_language_to_sql`, src/app.py:82-88)

The raw model output is stripped, then `re.sub(r'```sql\n?', '', ...)`, then
`re.sub(r'```\n?', '', ...)`, then stripped again.  Both `re.sub`s have an
empty replacement: the scan walks left to right, deleting each match and
resuming right after it. -/

/-- The backtick character. -/
def tick : Char := Char.ofNat 96

/-- `re.sub(r'```sql\n?', '', ·)` : delete every occurrence of three backticks
followed by `sql` and an optional newline (the `\n?` is greedy). -/
def stripFenceSql : List Char → List Char
  | a :: b :: c :: d :: e :: f :: g :: rest =>
    if a = tick && b = tick && c = tick && d = 's' && e = 'q' && f = 'l' then
      (if g = '\n' then stripFenceSql rest else stripFenceSql (g :: rest))
    else a :: stripFenceSql (b :: c :: d :: e :: f :: g :: rest)
  | a :: b :: c :: d :: e :: f :: [] =>
    if a = tick && b = tick && c = tick && d = 's' && e = 'q' && f = 'l' then []
    else a :: b :: c :: d :: e :: f :: []
  | l => l

/-- `re.sub(r'```\n?', '', ·)` : delete every occurrence of three backticks
and an optional following newline. -/
def stripFence : List Char → List Char
  | a :: b :: c :: d :: rest =>
    if a = tick && b = tick && c = tick then
      (if d = '\n' then stripFence rest else stripFence (d :: rest))
    else a :: stripFence (b :: c :: d :: rest)
  | a :: b :: c :: [] =>
    if a = tick && b = tick && c = tick then [] else a :: b :: c :: []
  | l => l

/-- Does the list begin with two backticks? -/
def ttStart : List Char → Bool
  | a :: b :: _ => a = tick && b = tick
  | _ => false

/-- Does the list contain three consecutive backticks (a code-fence marker)? -/
def hasTriple : List Char → Bool
  | a :: b :: c :: rest => (a = tick && b = tick && c = tick) || hasTriple (b :: c :: rest)
  | _ => false

/- ### Python `str.strip()` -/

/-- Python `str.strip()` : remove leading and trailing whitespace
(`lstrip` then `rstrip`, the latter via `reverse`). -/
def pyStripChars (l : List Char) : List Char :=
  ((l.dropWhile isPySpace).reverse.dropWhile isPySpace).reverse

def pyStrip (s : String) : String := ⟨pyStripChars s.data⟩

/- ### The translator's extraction pipeline (src/app.py:82-88) -/

/-- `response.text.strip()`, then the two fence `re.sub` passes, then a final
`strip()` : the post-processing applied to the raw model output. -/
def extract_sql (raw : String) : String :=
  ⟨pyStripChars (stripFence (stripFenceSql (pyStripChars raw.data)))⟩

/- ### Value rendering helpers -/

/-- Round `m / d` (for `d > 0`) to the nearest integer, ties to even — the
rounding of Python's `format(x, '.2f')` (exact on the terminating decimals
the claims use; binary-float representation error is not modelled). -/
def intRoundHalfEven (m d : Int) : Int :=
  let q := m.ediv d
  let r := m.emod d
  if 2 * r < d then q
  else if d < 2 * r then q + 1
  else if q.emod 2 = 0 then q else q + 1

def pad2 (n : Int) : String := if n < 10 then "0" ++ toString n else toString n

/-- Python `f"{x:.2f}"` on the decimal `m × 10⁻ᵉ` : the value in rounded
cents, rendered with two digits after the point. -/
def format2f (m : Int) (e : Nat) : String :=
  let c := if e ≤ 2 then m * (10 : Int) ^ (2 - e) else intRoundHalfEven m ((10 : Int) ^ (e - 2))
  if c < 0 then "-" ++ toString ((-c).ediv 100) ++ "." ++ pad2 ((-c).emod 100)
  else toString (c.ediv 100) ++ "." ++ pad2 (c.emod 100)

def dropTrailingZeros (s : String) : String :=
  ⟨(s.data.reverse.dropWhile fun c => c = '0').reverse⟩

def padToDigits (e : Nat) (s : String) : String :=
  ⟨List.replicate (e - s.length) '0'⟩ ++ s

/-- Python `str()` of the non-negative float `m × 10⁻ᵉ` (shortest-repr
printing agrees with the exact decimal expansion on terminating decimals). -/
def floatStrNN (m : Int) (e : Nat) : String :=
  let d := (10 : Int) ^ e
  let frac := dropTrailingZeros (padToDigits e (toString (m.emod d)))
  if frac = "" then toString (m.ediv d) ++ ".0"
  else toString (m.ediv d) ++ "." ++ frac

/-- Python `str()` of the float `m × 10⁻ᵉ`. -/
def floatStr (m : Int) (e : Nat) : String :=
  if m < 0 then "-" ++ floatStrNN (-m) e else floatStrNN m e

/-- Python `str()` / f-string rendering of a row value
(`str(float('nan'))` is `"nan"`). -/
def valueStr : PyVal → String
  | .vNone => "None"
  | .vStr s => s
  | .vInt n => toString n
  | .vNum m e => floatStr m e
  | .vBool b => if b then "True" else "False"
  | .vNaN => "nan"

/-- Python `float()`, modelled as a total conversion to a decimal pair.  On a
finite numeric value it is exact; on `None` or a non-numeric string Python
would raise, which cannot happen for the schema's `DECIMAL` column this is
applied to, and the embedding returns `0` there.  `NaN` is special-cased by
`pyFloat2f` before this conversion is consulted. -/
def pyFloatD : PyVal → Int × Nat
  | .vNone => (0, 0)
  | .vStr _ => (0, 0)
  | .vInt n => (n, 0)
  | .vNum m e => (m, e)
  | .vBool b => (if b then 1 else 0, 0)
  | .vNaN => (0, 0)

/-- Python `f"{float(v):.2f}"` : `float(nan)` is `nan` and formats as
`"nan"`; finite values format in rounded-cents notation. -/
def pyFloat2f (v : PyVal) : String :=
  match v with
  | .vNaN => "nan"
  | v => format2f (pyFloatD v).1 (pyFloatD v).2

/- ### Result rows

A result row is an ordered column→value mapping, as returned by
`cursor(dictionary=True).fetchall()`. -/

abbrev Row : Type := List (String × PyVal)

def rowHasKey (row : Row) (k : String) : Bool :=
  row.any fun kv => kv.1 == k

def rowGet? (row : Row) (k : String) : Option PyVal :=
  (row.find? fun kv => kv.1 == k).map fun kv => kv.2

/-- `row[k]` under a `k in row` guard (the guard makes `KeyError` impossible;
the `vNone` default is never reached in guarded uses). -/
def rowGetV (row : Row) (k : String) : PyVal := (rowGet? row k).getD PyVal.vNone

/-- `row.get(k, dflt)` rendered into an f-string.  `Series.get` is
label-based: a present column whose entry is `NaN` yields `NaN` (rendered
`"nan"`), not the default. -/
def rowGetD (row : Row) (k : String) (dflt : String) : String :=
  match rowGet? row k with
  | some v => valueStr v
  | none => dflt

/- ### `pd.DataFrame(results)` (src/app.py:122, consumed at 144 and 153)

`pd.DataFrame` over a list of dicts gives the frame the union of all rows'
keys as columns, in first-appearance order; each row becomes a Series over
*all* columns, entries for keys the dict lacks filled with `NaN`.  So
`'brand' in row` inside `iterrows()` tests the frame's column union, not the
one dict's keys.  pandas' missing-data casting rule is also modelled: a
column whose entries are all numeric (`int`/`float`/`None`/missing) but not
purely `int` is `float64`, coercing present `int`s to floats (`3` renders
`3.0`); every other column keeps its values as Python objects, with missing
entries as `NaN`. -/

/-- The frame's columns: first-appearance-ordered union of the rows' keys. -/
def dfColumns (results : List Row) : List String :=
  results.foldl
    (fun cols row =>
      row.foldl (fun cols kv => if cols.contains kv.1 then cols else cols ++ [kv.1]) cols)
    []

/-- Is the column's entry numeric for dtype inference?  Missing entries,
`None` and `NaN` count as numeric holes. -/
def numericEntry : Option PyVal → Bool
  | none => true
  | some (.vInt _) => true
  | some (.vNum _ _) => true
  | some .vNaN => true
  | some .vNone => true
  | some _ => false

/-- Is the column's entry a finite `int`? -/
def intEntry : Option PyVal → Bool
  | some (.vInt _) => true
  | _ => false

/-- Does column `c` get dtype `float64` (coercing its `int`s)?  Yes exactly
when every entry is numeric and some entry is not a finite `int`. -/
def colIsFloat (results : List Row) (c : String) : Bool :=
  (results.all fun row => numericEntry (rowGet? row c)) &&
  (results.any fun row => !intEntry (rowGet? row c))

/-- An entry of a `float64` column: `int`s become floats, holes become `NaN`. -/
def coerceFloat : Option PyVal → PyVal
  | some (.vInt n) => .vNum n 0
  | some (.vNum m e) => .vNum m e
  | _ => .vNaN

/-- An entry of a non-`float64` column: values kept as-is, missing keys
filled with `NaN`. -/
def coerceObj : Option PyVal → PyVal
  | some v => v
  | none => .vNaN

def pdCell (results : List Row) (row : Row) (c : String) : PyVal :=
  if colIsFloat results c then coerceFloat (rowGet? row c) else coerceObj (rowGet? row c)

/-- `pd.DataFrame(results)`, as the list of its rows, each reindexed over the
column union. -/
def pdDataFrame (results : List Row) : List Row :=
  results.map fun row => (dfColumns results).map fun c => (c, pdCell results row c)

/- ### `format_dataframe_simple` (src/app.py:146-168) -/

/-- The literal join separator that appears between detail fields in the
source file (a mojibake bullet). -/
def bulletSep : String := " â€¢ "

/-- The fallback formatter: `"No results found."` on an empty frame,
otherwise a `Found {n} results:` header and one block per row, accumulated
exactly as the source's `result_text +=` loop does. -/
def format_dataframe_simple (df : List Row) : String :=
  if df.isEmpty then "No results found."
  else
    df.foldl (fun result_text row =>
      result_text ++
        (if rowHasKey row "brand" && rowHasKey row "product_name" then
          "**" ++ rowGetD row "brand" "N/A" ++ " - " ++ rowGetD row "product_name" "N/A"
            ++ "**\n"
            ++ (String.intercalate bulletSep (List.filterMap id
                [if rowHasKey row "size" then
                   some ("Size: " ++ valueStr (rowGetV row "size")) else none,
                 if rowHasKey row "color" then
                   some ("Color: " ++ valueStr (rowGetV row "color")) else none,
                 if rowHasKey row "price_per_item" then
                   some ("Price: $" ++ pyFloat2f (rowGetV row "price_per_item")) else none,
                 if rowHasKey row "stock_quantity" then
                   some ("Stock: " ++ valueStr (rowGetV row "stock_quantity") ++ " units")
                 else none])
              ++ "\n\n")
        else
          String.intercalate " | " (row.map fun kv => kv.1 ++ ": " ++ valueStr kv.2)
            ++ "\n\n"))
      ("Found " ++ toString df.length ++ " results:\n\n")

/- ### `format_response` (src/app.py:114-144) -/

/-- Python truthiness of the `error` argument (`if error:` — `None` and the
empty string are falsy). -/
def pyTruthyStr : Option String → Bool
  | none => false
  | some s => !(s == "")

/-- Python truthiness of the `results` argument (`if not results:` — `None`
and the empty list are falsy). -/
def pyTruthyRows : Option (List Row) → Bool
  | none => false
  | some rs => !rs.isEmpty

/-- `format_response`.  The `generate_content` call on the response prompt is
an oracle `fmtModel` (`some txt` = the call returns with `response.text =
txt`; `none` = it raises).  Returns the response text together with a flag
recording whether the model path was entered (used to state the no-model-call
claims).  `error.getD ""` is only read under the truthiness guard, where
`error` is a `some`. -/
def format_response (question : String) (results : Option (List Row)) (error : Option String)
    (fmtModel : Option String) : String × Bool :=
  if pyTruthyStr error then
    ("I apologize, but I encountered an error processing your question: " ++ error.getD "", false)
  else if !pyTruthyRows results then
    ("I couldn't find any matching results for your question.", false)
  else
    match fmtModel with
    | some txt => (clean_response_text (PyVal.vStr (pyStrip txt)), true)
    | none => (format_dataframe_simple (pdDataFrame (results.getD [])), true)

/- ### `execute_query` (src/app.py:93-112) -/

/-- A database connection that records whether it is open and how many times
`close()` has been called (the spec's close-tracking fake connection). -/
structure FakeConn where
  connected : Bool
  closeCalls : Nat
deriving DecidableEq

def FakeConn.close (c : FakeConn) : FakeConn :=
  { connected := false, closeCalls := c.closeCalls + 1 }

def FakeConn.is_connected (c : FakeConn) : Bool := c.connected

/-- Outcome oracle for `cursor.execute` + `fetchall` : either the
materialized rows or a raised execution error with message `str(e)`. -/
inductive CursorOutcome where
  | success (rows : List Row)
  | failure (msg : String)

/-- The `(results, error)` pair together with the final state of the
acquired connection (`none` when acquisition failed and there was no
connection to close). -/
structure ExecResult where
  results : Option (List Row)
  error : Option String
  conn : Option FakeConn

/-- `execute_query` : acquisition failure returns
`(None, "Database connection failed")`; on success the cursor runs and the
connection is closed, on a raised error the `except` branch closes the
connection if it reports itself connected. -/
def execute_query (conn? : Option FakeConn) (outcome : CursorOutcome) : ExecResult :=
  match conn? with
  | none => { results := none, error := some "Database connection failed", conn := none }
  | some conn =>
    match outcome with
    | .success rows =>
      { results := some rows, error := none, conn := some conn.close }
    | .failure msg =>
      let conn2 := if conn.is_connected then conn.close else conn
      { results := none, error := some msg, conn := some conn2 }

/- ### `natural_language_to_sql` (src/app.py:61-91) and `main` (src/app.py:186-208) -/

/-- `natural_language_to_sql`.  The `generate_content` call on the
translation prompt (built from the question and schema) is the oracle `gen`:
`Except.ok raw` = the call returns `raw` as `response.text`;
`Except.error e` = it raises with `str(e) = e`, caught by the `except`
branch. -/
def natural_language_to_sql (question : String) (gen : Except String String) : String :=
  match gen with
  | .ok raw => extract_sql raw
  | .error e => "Error generating SQL: " ++ e

/-- Python `str.startswith`. -/
def pyStartsWith (s pre : String) : Bool := pre.data.isPrefixOf s.data

/-- The produced answer plus diagnostic artifacts, instrumented with flags
recording which stages ran. -/
structure Answer where
  text : String
  isError : Bool
  sql : String
  rows : Option (List Row)
  executorCalled : Bool
  fmtModelCalled : Bool

/-- The caller-facing pipeline run by `main` for a non-empty question
(src/app.py:189-196): translate; if the produced string starts with
`"Error"`, surface it via `st.error` and stop; otherwise execute and format,
surfacing the response via `st.success`. -/
def answer (question : String) (gen : Except String String) (conn? : Option FakeConn)
    (outcome : CursorOutcome) (fmtModel : Option String) : Answer :=
  if pyStartsWith (natural_language_to_sql question gen) "Error" then
    { text := natural_language_to_sql question gen, isError := true,
      sql := natural_language_to_sql question gen, rows := none,
      executorCalled := false, fmtModelCalled := false }
  else
    { text := (format_response question (execute_query conn? outcome).results
        (execute_query conn? outcome).error fmtModel).1,
      isError := false,
      sql := natural_language_to_sql question gen,
      rows := (execute_query conn? outcome).results,
      executorCalled := true,
      fmtModelCalled := (format_response question (execute_query conn? outcome).results
        (execute_query conn? outcome).error fmtModel).2 }

/- ### Claim-side row-rendering shapes (for the row-shape claim)

`labeledSummary`/`genericSummary` state the claimed shape of a rendered row:
a `brand - product_name` header with size/color/price/stock details, versus a
generic `col: val` join.  The theorem relating them to
`format_dataframe_simple` shows the source's accumulation loop renders every
row in exactly one of these two shapes. -/

def labeledSummary (row : Row) : String :=
  "**" ++ rowGetD row "brand" "N/A" ++ " - " ++ rowGetD row "product_name" "N/A"
    ++ "**\n"
    ++ (String.intercalate bulletSep (List.filterMap id
        [if rowHasKey row "size" then
           some ("Size: " ++ valueStr (rowGetV row "size")) else none,
         if rowHasKey row "color" then
           some ("Color: " ++ valueStr (rowGetV row "color")) else none,
         if rowHasKey row "price_per_item" then
           some ("Price: $" ++ pyFloat2f (rowGetV row "price_per_item")) else none,
         if rowHasKey row "stock_quantity" then
           some ("Stock: " ++ valueStr (rowGetV row "stock_quantity") ++ " units")
         else none])
      ++ "\n\n")

def genericSummary (row : Row) : String :=
  String.intercalate " | " (row.map fun kv => kv.1 ++ ": " ++ valueStr kv.2)
    ++ "\n\n"

/-- Concatenation of a list of strings (no separator). -/
def strJoin : List String → String
  | [] => ""
  | s :: rest => s ++ strJoin rest

/- ### Concrete sample rows -/

/-- The inventory row of the fallback-formatter claim (price 19.5 as the
exact decimal `195 × 10⁻¹`). -/
def nikeRow : Row :=
  [("brand", .vStr "Nike"), ("product_name", .vStr "Tee"), ("size", .vStr "L"),
   ("color", .vStr "Black"), ("price_per_item", .vNum 195 1), ("stock_quantity", .vInt 3)]

/-- A discount-style row without `brand`/`product_name` keys. -/
def discountRow : Row :=
  [("discount_type", .vStr "percentage"), ("discount_value", .vInt 10)]

theorem subPair_head? (p : Char → Char → Bool) (l : List Char) :
    (subPair p l).head? = l.head? := by
  match l with
  | [] => rfl
  | [c] => rfl
  | a :: b :: rest =>
    simp only [subPair]
    by_cases h : p a b = true <;> simp [h]

theorem noPair_cons (p : Char → Char → Bool) (a : Char) (l : List Char) :
    noPair p (a :: l) =
      ((match l.head? with | some b => !p a b | none => true) && noPair p l) := by
  match l with
  | [] => rfl
  | b :: rest => rfl

/-- One `subPair p` pass removes every match of `p`, provided a space can
never be part of a match and the second character of a match can never start
one (true of all three rules). -/
theorem subPair_complete (p : Char → Char → Bool)
    (hs1 : ∀ c, p c ' ' = false) (hs2 : ∀ c, p ' ' c = false)
    (hs3 : ∀ a b c, p a b = true → p b c = false) :
    ∀ l : List Char, noPair p (subPair p l) = true
  | [] => rfl
  | [_] => rfl
  | a :: b :: rest => by
    by_cases h : p a b = true
    · simp only [subPair, h, if_true]
      rw [noPair, noPair, noPair_cons]
      have ih := subPair_complete p hs1 hs2 hs3 rest
      have hb : (match (subPair p rest).head? with
          | some c => !p b c | none => true) = true := by
        cases hh : (subPair p rest).head? with
        | none => rfl
        | some c => simp [hs3 a b c h]
      simp [hs1 a, hs2 b, ih, hb]
    · simp only [subPair]
      rw [if_neg h, noPair_cons]
      have ih := subPair_complete p hs1 hs2 hs3 (b :: rest)
      have hb : (match (subPair p (b :: rest)).head? with
          | some c => !p a c | none => true) = true := by
        rw [subPair_head?]
        simp only [List.head?_cons]
        simp [h]
      simp [ih, hb]

/-- A `subPair p` pass never creates a match of another rule `q`, provided a
space can never be part of a `q`-match (true of all three rules). -/
theorem subPair_preserve (p q : Char → Char → Bool)
    (hq1 : ∀ c, q c ' ' = false) (hq2 : ∀ c, q ' ' c = false) :
    ∀ l : List Char, noPair q l = true → noPair q (subPair p l) = true
  | [], _ => rfl
  | [_], _ => rfl
  | a :: b :: rest, h => by
    rw [noPair] at h
    simp only [Bool.and_eq_true, Bool.not_eq_true'] at h
    obtain ⟨hab, hrest⟩ := h
    by_cases hp : p a b = true
    · simp only [subPair, hp, if_true]
      rw [noPair, noPair, noPair_cons]
      have ih := subPair_preserve p q hq1 hq2 rest
        (by rw [noPair_cons] at hrest; simp only [Bool.and_eq_true] at hrest; exact hrest.2)
      have hb : (match (subPair p rest).head? with
          | some c => !q b c | none => true) = true := by
        rw [subPair_head?]
        rw [noPair_cons] at hrest
        simp only [Bool.and_eq_true] at hrest
        exact hrest.1
      simp [hq1 a, hq2 b, ih, hb]
    · simp only [subPair]
      rw [if_neg hp, noPair_cons]
      have ih := subPair_preserve p q hq1 hq2 (b :: rest) hrest
      have hb : (match (subPair p (b :: rest)).head? with
          | some c => !q a c | none => true) = true := by
        rw [subPair_head?]
        simp [hab]
      simp [ih, hb]

/-- On a string with no `p`-match, `subPair p` is the identity. -/
theorem subPair_id (p : Char → Char → Bool) :
    ∀ l : List Char, noPair p l = true → subPair p l = l
  | [], _ => rfl
  | [_], _ => rfl
  | a :: b :: rest, h => by
    rw [noPair] at h
    simp only [Bool.and_eq_true, Bool.not_eq_true'] at h
    simp only [subPair]
    rw [if_neg (by simp [h.1])]
    exact congrArg (a :: ·) (subPair_id p (b :: rest) h.2)

/-- `subPair` only inserts characters, so it maps non-empty lists to
non-empty lists. -/
theorem subPair_ne_nil (p : Char → Char → Bool) (l : List Char) (h : l ≠ []) :
    subPair p l ≠ [] := by
  match l with
  | [] => exact absurd rfl h
  | [c] => simp [subPair]
  | a :: b :: rest =>
    simp only [subPair]
    by_cases hp : p a b = true <;> simp [hp]

/- ### Side conditions of the three rules -/

theorem ruleDotCap_space_right (c : Char) : ruleDotCap c ' ' = false := by
  simp [ruleDotCap, isUpperAZ]

theorem ruleDotCap_space_left (c : Char) : ruleDotCap ' ' c = false := by
  simp [ruleDotCap]

theorem ruleDotCap_chain (a b c : Char) (h : ruleDotCap a b = true) :
    ruleDotCap b c = false := by
  rw [Bool.eq_false_iff]
  intro hc
  simp only [ruleDotCap, isUpperAZ, Bool.and_eq_true, decide_eq_true_eq] at h hc
  obtain ⟨hb, -⟩ := hc
  subst hb
  have h46 : ('.' : Char).toNat = 46 := rfl
  omega

theorem ruleLowCap_space_right (c : Char) : ruleLowCap c ' ' = false := by
  simp [ruleLowCap, isUpperAZ]

theorem ruleLowCap_space_left (c : Char) : ruleLowCap ' ' c = false := by
  simp [ruleLowCap, isLowerAZ]

theorem ruleLowCap_chain (a b c : Char) (h : ruleLowCap a b = true) :
    ruleLowCap b c = false := by
  rw [Bool.eq_false_iff]
  intro hc
  simp only [ruleLowCap, isLowerAZ, isUpperAZ, Bool.and_eq_true, decide_eq_true_eq] at h hc
  omega

theorem ruleDigLet_space_right (c : Char) : ruleDigLet c ' ' = false := by
  simp [ruleDigLet, isLetterAZ, isLowerAZ, isUpperAZ]

theorem ruleDigLet_space_left (c : Char) : ruleDigLet ' ' c = false := by
  simp [ruleDigLet, isDigit09]

theorem ruleDigLet_chain (a b c : Char) (h : ruleDigLet a b = true) :
    ruleDigLet b c = false := by
  rw [Bool.eq_false_iff]
  intro hc
  simp only [ruleDigLet, isLetterAZ, isLowerAZ, isUpperAZ, isDigit09, Bool.or_eq_true,
    Bool.and_eq_true, decide_eq_true_eq] at h hc
  omega

/- ### Idempotence of the composed cleanup -/

theorem cleanChars_idem (l : List Char) : cleanChars (cleanChars l) = cleanChars l := by
  have h1 : noPair ruleDotCap (cleanChars l) = true := by
    apply subPair_preserve _ _ ruleDotCap_space_right ruleDotCap_space_left
    apply subPair_preserve _ _ ruleDotCap_space_right ruleDotCap_space_left
    exact subPair_complete _ ruleDotCap_space_right ruleDotCap_space_left ruleDotCap_chain l
  have h2 : noPair ruleLowCap (cleanChars l) = true := by
    apply subPair_preserve _ _ ruleLowCap_space_right ruleLowCap_space_left
    exact subPair_complete _ ruleLowCap_space_right ruleLowCap_space_left ruleLowCap_chain _
  have h3 : noPair ruleDigLet (cleanChars l) = true :=
    subPair_complete _ ruleDigLet_space_right ruleDigLet_space_left ruleDigLet_chain _
  show subPair ruleDigLet (subPair ruleLowCap (subPair ruleDotCap (cleanChars l))) = cleanChars l
  rw [subPair_id _ _ h1, subPair_id _ _ h2, subPair_id _ _ h3]

theorem hasTriple_cons (a : Char) (l : List Char) :
    hasTriple (a :: l) = ((a = tick && ttStart l) || hasTriple l) := by
  match l with
  | [] => simp [hasTriple, ttStart]
  | [b] => simp [hasTriple, ttStart]
  | b :: c :: rest =>
    simp only [hasTriple, ttStart]
    rw [Bool.and_assoc]

/-- If a list does not begin with a backtick, `stripFence` keeps its head. -/
theorem stripFence_head? (l : List Char) (h : ∀ a, l.head? = some a → ¬ a = tick) :
    (stripFence l).head? = l.head? := by
  match l with
  | [] => rfl
  | [a] => rfl
  | [a, b] => rfl
  | [a, b, c] =>
    have ha := h a rfl
    rw [stripFence, if_neg (by simp [ha])]
  | a :: b :: c :: d :: rest =>
    have ha := h a rfl
    rw [stripFence, if_neg (by simp [ha])]
    rfl

/-- `stripFence` never creates a leading pair of backticks. -/
theorem stripFence_ttStart (l : List Char) (h : ttStart l = false) :
    ttStart (stripFence l) = false := by
  match l with
  | [] => rfl
  | [a] => rfl
  | [a, b] => exact h
  | [a, b, c] =>
    simp only [ttStart, Bool.and_eq_false_iff, decide_eq_false_iff_not] at h
    have hne : ¬ (a = tick && (b = tick && c = tick)) = true := by
      simp only [Bool.and_eq_true, decide_eq_true_eq]
      rintro ⟨ha, hb, -⟩
      rcases h with h | h
      · exact h ha
      · exact h hb
    rw [stripFence, if_neg (by simpa [Bool.and_assoc] using hne)]
    simp only [ttStart, Bool.and_eq_false_iff, decide_eq_false_iff_not]
    exact h
  | a :: b :: c :: d :: rest =>
    simp only [ttStart, Bool.and_eq_false_iff, decide_eq_false_iff_not] at h
    have hne : ¬ (a = tick && (b = tick && c = tick)) = true := by
      simp only [Bool.and_eq_true, decide_eq_true_eq]
      rintro ⟨ha, hb, -⟩
      rcases h with h | h
      · exact h ha
      · exact h hb
    rw [stripFence, if_neg (by simpa [Bool.and_assoc] using hne)]
    by_cases ha : a = tick
    · have hb : ¬ b = tick := by
        rcases h with h | h
        · exact absurd ha h
        · exact h
      have hh : (stripFence (b :: c :: d :: rest)).head? = some b :=
        stripFence_head? _ (by
          intro x hx
          simp only [List.head?_cons, Option.some.injEq] at hx
          subst hx
          exact hb)
      cases hcons : stripFence (b :: c :: d :: rest) with
      | nil => rw [hcons] at hh; simp at hh
      | cons x xs =>
        rw [hcons] at hh
        simp only [List.head?_cons, Option.some.injEq] at hh
        subst hh
        simp [ttStart, hb]
    · cases hcons : stripFence (b :: c :: d :: rest) with
      | nil => rfl
      | cons x xs => simp [ttStart, ha]

/-- The second `re.sub` pass removes every code-fence marker: its output never
contains three consecutive backticks, whatever the input (including inputs
with nested or partial fences, and whatever the first pass left behind). -/
theorem stripFence_no_triple : ∀ l : List Char, hasTriple (stripFence l) = false
  | [] => rfl
  | [_] => rfl
  | [_, _] => rfl
  | [a, b, c] => by
    by_cases hm : (a = tick && (b = tick && c = tick)) = true
    · rw [stripFence, if_pos (by simpa [Bool.and_assoc] using hm)]
      rfl
    · rw [stripFence, if_neg (by simpa [Bool.and_assoc] using hm)]
      simp only [Bool.and_eq_true, decide_eq_true_eq] at hm
      simp only [hasTriple, Bool.or_eq_false_iff]
      refine ⟨?_, trivial⟩
      rw [Bool.eq_false_iff]
      intro hx
      simp only [Bool.and_eq_true, decide_eq_true_eq] at hx
      tauto
  | a :: b :: c :: d :: rest => by
    by_cases hm : (a = tick && (b = tick && c = tick)) = true
    · rw [stripFence, if_pos (by simpa [Bool.and_assoc] using hm)]
      by_cases hd : d = '\n'
      · rw [if_pos hd]
        exact stripFence_no_triple rest
      · rw [if_neg hd]
        exact stripFence_no_triple (d :: rest)
    · rw [stripFence, if_neg (by simpa [Bool.and_assoc] using hm)]
      rw [hasTriple_cons]
      simp only [Bool.and_eq_true, decide_eq_true_eq, not_and] at hm
      have ih := stripFence_no_triple (b :: c :: d :: rest)
      simp only [Bool.or_eq_false_iff]
      refine ⟨?_, ih⟩
      by_cases ha : a = tick
      · have hbc : ¬ (b = tick ∧ c = tick) := fun hx => hm ha hx.1 hx.2
        have htt : ttStart (b :: c :: d :: rest) = false := by
          simp only [ttStart, Bool.and_eq_false_iff, decide_eq_false_iff_not]
          by_cases hb : b = tick
          · exact Or.inr (fun hc => hbc ⟨hb, hc⟩)
          · exact Or.inl hb
        rw [stripFence_ttStart _ htt]
        simp
      · simp [ha]
termination_by l => l.length
decreasing_by
  all_goals simp
  all_goals omega

/-- A leading pair of backticks, as a prefix statement. -/
theorem ttStart_iff (l : List Char) : ttStart l = true ↔ [tick, tick] <+: l := by
  match l with
  | [] => simp [ttStart, List.prefix_nil]
  | [b] =>
    simp only [ttStart, List.cons_prefix_cons, List.prefix_nil]
    simp
  | b :: c :: r =>
    simp only [ttStart, List.cons_prefix_cons, Bool.and_eq_true, decide_eq_true_eq]
    constructor
    · rintro ⟨hb, hc⟩
      exact ⟨hb.symm, hc.symm, List.nil_prefix⟩
    · rintro ⟨hb, hc, -⟩
      exact ⟨hb.symm, hc.symm⟩

/-- `hasTriple` detects exactly the presence of `\`\`\`` as a contiguous
substring. -/
theorem hasTriple_iff (l : List Char) : hasTriple l = true ↔ [tick, tick, tick] <:+: l := by
  induction l with
  | nil =>
    simp only [hasTriple, List.infix_nil]
    simp
  | cons a l ih =>
    rw [hasTriple_cons, List.infix_cons_iff]
    simp only [Bool.or_eq_true, Bool.and_eq_true, decide_eq_true_eq, ih,
      List.cons_prefix_cons, ttStart_iff]
    tauto

/-- Monotonicity: a fence-free list has fence-free infixes. -/
theorem hasTriple_mono {t l : List Char} (hinf : t <:+: l) (h : hasTriple l = false) :
    hasTriple t = false := by
  rw [Bool.eq_false_iff]
  intro ht
  rw [Bool.eq_false_iff] at h
  exact h ((hasTriple_iff l).2 (((hasTriple_iff t).1 ht).trans hinf))

theorem dropWhile_head?_all (p : Char → Bool) :
    ∀ l : List Char, ((l.dropWhile p).head?.all fun c => !p c) = true
  | [] => rfl
  | a :: r => by
    rw [List.dropWhile_cons]
    by_cases h : p a = true
    · rw [if_pos h]
      exact dropWhile_head?_all p r
    · rw [if_neg h]
      simp only [List.head?_cons, Option.all_some]
      simp [h]

theorem dropWhile_getLast? (p : Char → Bool) :
    ∀ l : List Char, l.dropWhile p ≠ [] → (l.dropWhile p).getLast? = l.getLast?
  | [], h => absurd rfl h
  | a :: r, h => by
    rw [List.dropWhile_cons] at h ⊢
    by_cases hp : p a = true
    · rw [if_pos hp] at h ⊢
      have hr : r ≠ [] := by
        intro hnil
        subst hnil
        exact h rfl
      match r, hr with
      | b :: r2, _ =>
        rw [List.getLast?_cons_cons]
        exact dropWhile_getLast? p (b :: r2) h
    · rw [if_neg hp] at h ⊢

/-- The first character of a stripped string is not whitespace. -/
theorem pyStripChars_head (l : List Char) :
    ((pyStripChars l).head?.all fun c => !isPySpace c) = true := by
  unfold pyStripChars
  rw [List.head?_reverse]
  by_cases hB : (l.dropWhile isPySpace).reverse.dropWhile isPySpace = []
  · rw [hB]
    rfl
  · rw [dropWhile_getLast? _ _ hB, List.getLast?_reverse]
    exact dropWhile_head?_all _ _

/-- The last character of a stripped string is not whitespace. -/
theorem pyStripChars_getLast (l : List Char) :
    ((pyStripChars l).getLast?.all fun c => !isPySpace c) = true := by
  unfold pyStripChars
  rw [List.getLast?_reverse]
  exact dropWhile_head?_all _ _

/-- Stripping yields a contiguous substring of the input. -/
theorem pyStripChars_contiguous (l : List Char) : pyStripChars l <:+: l := by
  unfold pyStripChars
  have h1 : l.dropWhile isPySpace <:+ l := List.dropWhile_suffix _
  have h2 : ((l.dropWhile isPySpace).reverse.dropWhile isPySpace) <:+
      (l.dropWhile isPySpace).reverse := List.dropWhile_suffix _
  have h3 := ( @List.reverse_prefix Char
    ((l.dropWhile isPySpace).reverse.dropWhile isPySpace) ((l.dropWhile isPySpace).reverse)).2 h2
  rw [List.reverse_reverse] at h3
  exact h3.isInfix.trans h1.isInfix

/- ### String helper lemmas -/

theorem append_ne_empty_left (s t : String) (h : s ≠ "") : s ++ t ≠ "" := by
  intro h0
  apply h
  have hd := congrArg String.data h0
  rw [String.data_append] at hd
  exact String.ext (List.append_eq_nil.mp hd).1

theorem mk_ne_empty (l : List Char) (h : l ≠ []) : (⟨l⟩ : String) ≠ "" :=
  fun h0 => h (congrArg String.data h0)

theorem str_data_ne_nil (s : String) (h : s ≠ "") : s.data ≠ [] :=
  fun h0 => h (String.ext h0)

theorem cleanChars_ne_nil (l : List Char) (h : l ≠ []) : cleanChars l ≠ [] :=
  subPair_ne_nil _ _ (subPair_ne_nil _ _ (subPair_ne_nil _ _ h))

/-- The source's `result_text += block` loop is the header followed by the
concatenation of the per-row blocks. -/
theorem foldl_acc_eq_strJoin (f : Row → String) :
    ∀ (df : List Row) (init : String),
      df.foldl (fun acc r => acc ++ f r) init = init ++ strJoin (df.map f)
  | [], init => by
    simp [strJoin]
  | r :: rest, init => by
    rw [List.foldl_cons, foldl_acc_eq_strJoin f rest (init ++ f r), List.map_cons, strJoin,
      String.append_assoc]

/-- Whenever a successful formatting-model output is not entirely whitespace,
`format_response` returns non-empty text (all other branches return fixed
non-empty messages or the non-empty fallback rendering). -/
theorem format_response_text_ne (q : String) (results : Option (List Row))
    (error : Option String) (fmtModel : Option String)
    (hm : ∀ t, fmtModel = some t → pyStrip t ≠ "") :
    (format_response q results error fmtModel).1 ≠ "" := by
  unfold format_response
  by_cases he : pyTruthyStr error = true
  · rw [if_pos he]
    exact append_ne_empty_left _ _ (by decide)
  · rw [if_neg he]
    by_cases hr : (!pyTruthyRows results) = true
    · rw [if_pos hr]
      decide
    · rw [if_neg hr]
      cases hf : fmtModel with
      | some txt =>
        have h1 : pyStrip txt ≠ "" := hm txt hf
        exact mk_ne_empty _ (cleanChars_ne_nil _ (str_data_ne_nil _ h1))
      | none =>
        have hr2 : pyTruthyRows results = true := by
          cases hx : pyTruthyRows results
          · rw [hx] at hr
            exact absurd rfl hr
          · rfl
        cases results with
        | none => simp [pyTruthyRows] at hr2
        | some rs =>
          have hrs : rs.isEmpty = false := by
            cases hy : rs.isEmpty
            · rfl
            · rw [pyTruthyRows, hy] at hr2
              exact absurd hr2 (by decide)
          show format_dataframe_simple (pdDataFrame rs) ≠ ""
          have hpd : (pdDataFrame rs).isEmpty = false := by
            cases rs with
            | nil => simp at hrs
            | cons a t => rfl
          unfold format_dataframe_simple
          rw [if_neg (by simp [hpd])]
          rw [foldl_acc_eq_strJoin]
          exact append_ne_empty_left _ _
            (append_ne_empty_left _ _ (append_ne_empty_left _ _ (by decide)))

/- ### Claim theorems -/

/-- C5.  The text-cleanup pass is idempotent: for every string `s`, applying
`clean_response_text`'s three spacing substitutions twice equals applying
them once. -/
theorem clean_response_text_idempotent (s : String) :
    clean_response_text (.vStr (clean_response_text (.vStr s))) =
      clean_response_text (.vStr s) := by
  show (⟨cleanChars (cleanChars s.data)⟩ : String) = ⟨cleanChars s.data⟩
  exact congrArg String.mk (cleanChars_idem s.data)

/-- C9.  `clean_response_text` is total: it is a function into `String` by
construction, and on every non-`str` argument (such as `None`) it returns the
empty string rather than raising. -/
theorem clean_response_text_nonstring_empty (v : PyVal) (h : ∀ s, v ≠ PyVal.vStr s) :
    clean_response_text v = "" := by
  cases v with
  | vStr s => exact absurd rfl (h s)
  | vNone => rfl
  | vInt n => rfl
  | vNum m e => rfl
  | vBool b => rfl
  | vNaN => rfl

/-- Witness for C9 at the concrete non-string argument `None`. -/
theorem clean_response_text_nonstring_empty_witness :
    clean_response_text PyVal.vNone = "" :=
  clean_response_text_nonstring_empty PyVal.vNone (fun _ h => PyVal.noConfusion h)

/-- C7.  With no executor error and an empty result set, `format_response`
returns the fixed no-matching-results message and never enters the
model-call branch, whatever the model oracle would have answered. -/
theorem format_response_empty_results_fixed_message (q : String) (fmtModel : Option String) :
    format_response q (some []) none fmtModel =
      ("I couldn't find any matching results for your question.", false) := rfl

/-- C2.  Once a connection has been acquired, `execute_query` closes it
exactly once before returning, both on a successful execution and on a
raised execution error: the connection is never leaked. -/
theorem execute_query_closes_connection (c : FakeConn) (outcome : CursorOutcome)
    (h : c.connected = true) :
    ∃ c2, (execute_query (some c) outcome).conn = some c2
      ∧ c2.connected = false ∧ c2.closeCalls = c.closeCalls + 1 := by
  cases outcome with
  | success rows => exact ⟨c.close, rfl, rfl, rfl⟩
  | failure msg =>
    refine ⟨c.close, ?_, rfl, rfl⟩
    show some (if c.is_connected then c.close else c) = some c.close
    rw [FakeConn.is_connected, h, if_pos rfl]

/-- Witness for C2 on a fresh connection and a failing statement. -/
theorem execute_query_closes_connection_witness :
    ∃ c2, (execute_query (some ⟨true, 0⟩) (.failure "syntax error")).conn = some c2
      ∧ c2.connected = false ∧ c2.closeCalls = 0 + 1 :=
  execute_query_closes_connection ⟨true, 0⟩ (.failure "syntax error") rfl

set_option maxRecDepth 400000 in
/-- C6.  The deterministic fallback formatter renders the sample Nike row
with the claimed fragments, and returns the fixed non-empty
`"No results found."` message on an empty result set. -/
theorem format_dataframe_simple_concrete :
    ("Nike - Tee".data <:+: (format_dataframe_simple [nikeRow]).data)
    ∧ ("Size: L".data <:+: (format_dataframe_simple [nikeRow]).data)
    ∧ ("Price: $19.50".data <:+: (format_dataframe_simple [nikeRow]).data)
    ∧ ("Stock: 3 units".data <:+: (format_dataframe_simple [nikeRow]).data)
    ∧ format_dataframe_simple [] = "No results found."
    ∧ format_dataframe_simple [] ≠ "" := by
  refine ⟨?_, ?_, ?_, ?_, ?_, ?_⟩ <;> decide

/-- The accumulation loop of `format_dataframe_simple` on an already-built
frame: header followed by one block per frame row, labeled when the row's
own index has both keys (after `pdDataFrame`, the index is the column
union, uniform across rows). -/
theorem format_dataframe_loop_shapes (df : List Row) (h : df ≠ []) :
    format_dataframe_simple df =
      "Found " ++ toString df.length ++ " results:\n\n"
        ++ strJoin (df.map fun row =>
             if rowHasKey row "brand" && rowHasKey row "product_name" then labeledSummary row
             else genericSummary row) := by
  unfold format_dataframe_simple
  rw [if_neg (by simp [h])]
  show df.foldl (fun acc row => acc ++
      (if rowHasKey row "brand" && rowHasKey row "product_name" then labeledSummary row
       else genericSummary row)) ("Found " ++ toString df.length ++ " results:\n\n") = _
  exact foldl_acc_eq_strJoin _ df _

theorem beq_comm_str (a b : String) : (a == b) = (b == a) := by
  rw [Bool.eq_iff_iff]
  simp only [beq_iff_eq]
  exact eq_comm

theorem any_eqKey_eq_contains (cols : List String) (k : String) :
    (cols.any fun c => c == k) = cols.contains k := by
  induction cols with
  | nil => rfl
  | cons c cols ih =>
    show ((c == k) || cols.any fun c => c == k) = (c :: cols).contains k
    rw [ih, beq_comm_str c k, List.contains_cons]

theorem any_fst_map (cols : List String) (g : String → String × PyVal) (k : String) :
    ((cols.map g).any fun kv => kv.1 == k) = cols.any fun c => (g c).1 == k := by
  induction cols with
  | nil => rfl
  | cons c cols ih =>
    show ((g c).1 == k || (cols.map g).any fun kv => kv.1 == k) = _
    rw [ih]
    rfl

/-- Every row of the built frame carries the full column union, so its key
test coincides with column membership. -/
theorem rowHasKey_pdDataFrame (results : List Row) (row : Row)
    (hrow : row ∈ pdDataFrame results) (k : String) :
    rowHasKey row k = (dfColumns results).contains k := by
  unfold pdDataFrame at hrow
  obtain ⟨r0, -, rfl⟩ := List.mem_map.mp hrow
  unfold rowHasKey
  rw [any_fst_map]
  show ((dfColumns results).any fun c => c == k) = (dfColumns results).contains k
  exact any_eqKey_eq_contains _ k

/-- C10 (amended).  The fallback formatter runs on `pd.DataFrame(results)`,
whose rows all carry the frame's column union (missing entries `NaN`): a row
is rendered in the labeled-summary shape exactly when the column union —
equivalently, under the uniform key sets of an executor result, the row
itself — contains both `brand` and `product_name`, otherwise as the generic
`col: val` join, and every row of a non-empty input appears, in order, after
the `Found {n} results:` header. -/
theorem format_dataframe_pd_row_shapes (results : List Row) (h : results ≠ []) :
    (format_dataframe_simple (pdDataFrame results) =
      "Found " ++ toString results.length ++ " results:\n\n"
        ++ strJoin ((pdDataFrame results).map fun row =>
             if rowHasKey row "brand" && rowHasKey row "product_name" then labeledSummary row
             else genericSummary row))
    ∧ ∀ row ∈ pdDataFrame results,
        rowHasKey row "brand" = (dfColumns results).contains "brand"
        ∧ rowHasKey row "product_name" = (dfColumns results).contains "product_name" := by
  constructor
  · have hne : pdDataFrame results ≠ [] := by
      cases results with
      | nil => exact absurd rfl h
      | cons a t => exact fun hx => List.noConfusion hx
    rw [format_dataframe_loop_shapes (pdDataFrame results) hne]
    show "Found " ++ toString (List.length (results.map _)) ++ _ ++ _ = _
    rw [List.length_map]
  · intro row hrow
    exact ⟨rowHasKey_pdDataFrame results row hrow "brand",
           rowHasKey_pdDataFrame results row hrow "product_name"⟩

set_option maxRecDepth 400000 in
/-- Witness for amended C10 on the two-row heterogeneous frame. -/
theorem format_dataframe_pd_row_shapes_witness :
    ([nikeRow, discountRow] : List Row) ≠ []
    ∧ format_dataframe_simple (pdDataFrame [nikeRow, discountRow]) =
        "Found " ++ toString ([nikeRow, discountRow] : List Row).length ++ " results:\n\n"
          ++ strJoin ((pdDataFrame [nikeRow, discountRow]).map fun row =>
               if rowHasKey row "brand" && rowHasKey row "product_name" then labeledSummary row
               else genericSummary row) :=
  ⟨by decide, (format_dataframe_pd_row_shapes [nikeRow, discountRow] (by decide)).1⟩

set_option maxRecDepth 400000 in
/-- Counterexample to C10 as stated: on the heterogeneous frame
`[nikeRow, discountRow]`, `'brand' in row` tests the frame's column union,
so the key-missing discount row is rendered in the labeled shape with `NaN`
values (`**nan - nan**`) — not as the generic `col: val` join of its own
fields — and the output differs from the claimed per-row-key rendering. -/
theorem fallback_generic_shape_counterexample :
    format_dataframe_simple (pdDataFrame [nikeRow, discountRow]) ≠
      "Found " ++ toString ([nikeRow, discountRow] : List Row).length ++ " results:\n\n"
        ++ strJoin (([nikeRow, discountRow] : List Row).map fun row =>
             if rowHasKey row "brand" && rowHasKey row "product_name" then labeledSummary row
             else genericSummary row)
    ∧ ¬ ((genericSummary discountRow).data <:+:
          (format_dataframe_simple (pdDataFrame [nikeRow, discountRow])).data)
    ∧ ("**nan - nan**".data <:+:
        (format_dataframe_simple (pdDataFrame [nikeRow, discountRow])).data) := by
  refine ⟨?_, ?_, ?_⟩ <;> decide

set_option maxRecDepth 400000 in
/-- C4.  For every raw model output, the extracted SQL contains no code-fence
marker (neither ```` ```sql ```` nor a bare ```` ``` ````) and has no leading
or trailing whitespace; on the fenced sample it extracts the bare statement. -/
theorem extraction_no_fences_no_whitespace (raw : String) :
    ¬ ("```".data <:+: (extract_sql raw).data)
    ∧ ¬ ("```sql".data <:+: (extract_sql raw).data)
    ∧ ((extract_sql raw).data.head?.all fun c => !isPySpace c) = true
    ∧ ((extract_sql raw).data.getLast?.all fun c => !isPySpace c) = true
    ∧ extract_sql "```sql\nSELECT * FROM inventory\n```" = "SELECT * FROM inventory" := by
  have hnt : hasTriple (extract_sql raw).data = false := by
    show hasTriple (pyStripChars (stripFence (stripFenceSql (pyStripChars raw.data)))) = false
    exact hasTriple_mono (pyStripChars_contiguous _) (stripFence_no_triple _)
  have h3 : ¬ ("```".data <:+: (extract_sql raw).data) := by
    intro hin
    have heq : ("```".data : List Char) = [tick, tick, tick] := by decide
    rw [heq] at hin
    have hT := (hasTriple_iff _).2 hin
    rw [hnt] at hT
    exact absurd hT (by decide)
  refine ⟨h3, ?_, ?_, ?_, ?_⟩
  · intro hin
    apply h3
    have hpre : ("```".data : List Char) <+: "```sql".data := by decide
    exact hpre.isInfix.trans hin
  · show ((pyStripChars (stripFence (stripFenceSql (pyStripChars raw.data)))).head?.all
      fun c => !isPySpace c) = true
    exact pyStripChars_head _
  · show ((pyStripChars (stripFence (stripFenceSql (pyStripChars raw.data)))).getLast?.all
      fun c => !isPySpace c) = true
    exact pyStripChars_getLast _
  · decide

set_option maxRecDepth 400000 in
/-- Witness for C4 at the fenced sample output. -/
theorem extraction_no_fences_no_whitespace_witness :
    ¬ ("```".data <:+: (extract_sql "```sql\nSELECT * FROM inventory\n```").data)
    ∧ extract_sql "```sql\nSELECT * FROM inventory\n```" = "SELECT * FROM inventory" :=
  ⟨(extraction_no_fences_no_whitespace "```sql\nSELECT * FROM inventory\n```").1,
   (extraction_no_fences_no_whitespace "```sql\nSELECT * FROM inventory\n```").2.2.2.2⟩

/-- C3.  A raised translation-model error becomes the distinctly prefixed
string `"Error generating SQL: ..."`, and every translator result carrying
that prefix is surfaced by the orchestrator as an error, with the executor
never invoked. -/
theorem translation_error_short_circuits (q e : String) (gen : Except String String)
    (conn? : Option FakeConn) (outcome : CursorOutcome) (fmtModel : Option String)
    (h : pyStartsWith (natural_language_to_sql q gen) "Error generating SQL: " = true) :
    natural_language_to_sql q (.error e) = "Error generating SQL: " ++ e
    ∧ (answer q gen conn? outcome fmtModel).executorCalled = false
    ∧ (answer q gen conn? outcome fmtModel).isError = true
    ∧ (answer q gen conn? outcome fmtModel).text = natural_language_to_sql q gen := by
  have hE : pyStartsWith (natural_language_to_sql q gen) "Error" = true := by
    rw [pyStartsWith] at h ⊢
    rw [ List.isPrefixOf_iff_prefix] at h ⊢
    exact List.IsPrefix.trans (by decide) h
  refine ⟨rfl, ?_, ?_, ?_⟩ <;> (unfold answer; rw [if_pos hE])

/-- Witness for C3 with a concrete raised model error. -/
theorem translation_error_short_circuits_witness :
    natural_language_to_sql "any discounts on Adidas?" (.error "quota exceeded")
        = "Error generating SQL: " ++ "quota exceeded"
    ∧ (answer "any discounts on Adidas?" (.error "quota exceeded") none
        (.failure "x") none).executorCalled = false
    ∧ (answer "any discounts on Adidas?" (.error "quota exceeded") none
        (.failure "x") none).isError = true
    ∧ (answer "any discounts on Adidas?" (.error "quota exceeded") none
        (.failure "x") none).text
        = natural_language_to_sql "any discounts on Adidas?" (.error "quota exceeded") :=
  translation_error_short_circuits "any discounts on Adidas?" "quota exceeded"
    (.error "quota exceeded") none (.failure "x") none (by decide)

/-- C8.  The orchestrator classifies translation failure purely by the
`"Error"` string prefix: any successfully generated output whose extraction
begins with `"Error"` is reported as a failure and the executor is never
called. -/
theorem error_prefix_blocks_execution (q raw : String) (conn? : Option FakeConn)
    (outcome : CursorOutcome) (fmtModel : Option String)
    (h : pyStartsWith (extract_sql raw) "Error" = true) :
    (answer q (.ok raw) conn? outcome fmtModel).executorCalled = false
    ∧ (answer q (.ok raw) conn? outcome fmtModel).isError = true
    ∧ (answer q (.ok raw) conn? outcome fmtModel).text = extract_sql raw := by
  have hE : pyStartsWith (natural_language_to_sql q (.ok raw)) "Error" = true := h
  refine ⟨?_, ?_, ?_⟩ <;> (unfold answer; rw [if_pos hE]) <;> rfl

set_option maxRecDepth 400000 in
/-- Witness for C8: a successful model output that merely begins with
`Errors` is short-circuited. -/
theorem error_prefix_blocks_execution_witness :
    (answer "show logs" (.ok "Errors FROM audit") none (.success []) none).executorCalled = false
    ∧ (answer "show logs" (.ok "Errors FROM audit") none (.success []) none).isError = true
    ∧ (answer "show logs" (.ok "Errors FROM audit") none (.success []) none).text
        = extract_sql "Errors FROM audit" :=
  error_prefix_blocks_execution "show logs" "Errors FROM audit" none (.success []) none
    (by decide)

/-- C1 (amended).  For every question and every combination of injected
stage failures — database connection, SQL execution, either model call — the
pipeline terminates in an `Answer` whose text is non-empty, provided that a
*successful* formatting-model output is not entirely whitespace (the
embedding is a total function, so no path raises). -/
theorem answer_text_nonempty_amended (q : String) (gen : Except String String)
    (conn? : Option FakeConn) (outcome : CursorOutcome) (fmtModel : Option String)
    (hm : ∀ t, fmtModel = some t → pyStrip t ≠ "") :
    (answer q gen conn? outcome fmtModel).text ≠ "" := by
  unfold answer
  by_cases hs : pyStartsWith (natural_language_to_sql q gen) "Error" = true
  · rw [if_pos hs]
    show natural_language_to_sql q gen ≠ ""
    intro h0
    rw [h0] at hs
    exact absurd hs (by decide)
  · rw [if_neg hs]
    show (format_response q (execute_query conn? outcome).results
      (execute_query conn? outcome).error fmtModel).1 ≠ ""
    exact format_response_text_ne _ _ _ _ hm

/-- Witness for amended C1: a translation failure still yields non-empty
text. -/
theorem answer_text_nonempty_amended_witness :
    (answer "Do we have Nike shirts in size L?" (.error "network down") none
      (.failure "e") none).text ≠ "" :=
  answer_text_nonempty_amended _ _ _ _ _ (fun _ ht => Option.noConfusion ht)

set_option maxRecDepth 400000 in
/-- Counterexample to C1 as stated: with every stage succeeding but the
formatting model returning the empty string, the produced answer text is
empty. -/
theorem answer_text_empty_on_blank_model_output :
    (answer "Do we have Nike shirts in size L?" (.ok "SELECT * FROM inventory")
      (some ⟨true, 0⟩) (.success [nikeRow]) (some "")).text = "" := by
  decide
